import Mathlib

/-!
Verification of the conditional-testcase rewriting script
(`scripts/apply_conditional_testcases.py`).

The script has two core components:

* `find_testcase_end` — a bracket-aware scanner that locates the line
  containing the `]` matching the `[` that opens a (possibly multi-line)
  attribute, skipping bracket characters inside regular (`"..."`) and
  verbatim (`@"..."`) string literals;
* `process_file` — the rewriter, embedded here as `process_content`
  (file I/O stripped): it splits the content on newlines, wraps every
  recognised `[TestCase(DatabaseType.X, ...)]` span in `#if SYMBOL` /
  `#endif` guard lines, and reports a wrap count and a modified flag.

Lines are embedded as `List Char`; a file's content as a `List Char`
containing newline characters.  The character-by-character inner loop of
`find_testcase_end` is embedded as a step function `scanStep` (one loop
iteration: current character plus one character of lookahead) driven by
`scanLine`; the `while i < len(lines)` rewriting loop is embedded as the
fuelled `processGo`, where the fuel `lines.length` is an upper bound on
the number of iterations (the loop index strictly increases each time).
-/

/-- Scanner state of `find_testcase_end`: bracket depth plus the three
string-tracking flags.  `bracket_depth` is an unbounded integer, as in
Python (a stray `]` drives it negative without terminating the scan). -/
structure ScanState where
  bracket_depth : Int
  in_string : Bool
  in_verbatim_string : Bool
  escape_next : Bool
deriving DecidableEq, Repr

/-- Initial scanner state: depth 0, all flags cleared. -/
def initState : ScanState := ⟨0, false, false, false⟩

/-- Result of one iteration of the scanner's inner character loop:
either the matching close bracket was found (Python `return i`), or the
scan continues with an updated state, having consumed 1 or 2 characters. -/
inductive StepOut where
  | found : StepOut
  | continue (s : ScanState) (consumed : Nat) : StepOut
deriving DecidableEq, Repr

/-- One iteration of the scanner's character loop.  `c` is the current
character `line[j]`; `next` is `line[j+1]` when it exists.  The branch
structure and order mirror the Python source exactly. -/
def scanStep (s : ScanState) (c : Char) (next : Option Char) : StepOut :=
  if c = '@' ∧ next = some '"' ∧ s.in_string = false ∧ s.in_verbatim_string = false then
    StepOut.continue { s with in_verbatim_string := true } 2
  else if c = '"' ∧ s.in_verbatim_string = false then
    StepOut.continue
      { s with in_string := if s.escape_next = true then s.in_string else !s.in_string,
               escape_next := false } 1
  else if c = '"' ∧ s.in_verbatim_string = true then
    (if next = some '"' then
      StepOut.continue s 2
    else
      StepOut.continue { s with in_verbatim_string := false } 1)
  else if c = '\\' ∧ s.in_string = true ∧ s.in_verbatim_string = false then
    StepOut.continue { s with escape_next := true } 1
  else if s.in_string = false ∧ s.in_verbatim_string = false ∧ c = '[' then
    StepOut.continue { s with bracket_depth := s.bracket_depth + 1, escape_next := false } 1
  else if s.in_string = false ∧ s.in_verbatim_string = false ∧ c = ']' then
    (if s.bracket_depth - 1 = 0 then
      StepOut.found
    else
      StepOut.continue { s with bracket_depth := s.bracket_depth - 1, escape_next := false } 1)
  else
    StepOut.continue { s with escape_next := false } 1

/-- The scanner's inner `while j < len(line)` loop over one line:
returns `none` when the matching `]` was found on this line (Python
`return i`), or `some s` with the state carried to the next line. -/
def scanLine : ScanState → List Char → Option ScanState
  | s, [] => some s
  | s, [c] =>
    (match scanStep s c none with
     | StepOut.found => none
     | StepOut.continue s1 _ => scanLine s1 [])
  | s, c :: c2 :: cs =>
    (match scanStep s c (some c2) with
     | StepOut.found => none
     | StepOut.continue s1 k => if k = 2 then scanLine s1 cs else scanLine s1 (c2 :: cs))

/-- The scanner's outer `for i in range(start_index, len(lines))` loop:
`i` is the absolute index of the first line of `ls`.  Returns `some i`
when the matching close was found on line `i`, `none` when the buffer is
exhausted. -/
def findAux : ScanState → List (List Char) → Nat → Option Nat
  | _, [], _ => none
  | s, l :: rest, i =>
    (match scanLine s l with
     | none => some i
     | some s1 => findAux s1 rest (i + 1))

/-- `find_testcase_end(lines, start_index)` from the source: the index of
the line containing the `]` matching the attribute's opening `[`, or
`start_index` itself when the buffer ends without a match. -/
def find_testcase_end (lines : List (List Char)) (start_index : Nat) : Nat :=
  match findAux initState (lines.drop start_index) start_index with
  | some i => i
  | none => start_index

/-- Python `\s` on the characters that can occur here (ASCII core). -/
def isSpaceChar (c : Char) : Bool :=
  c = ' ' || c = '\t' || c = '\n' || c = '\r' || c = '\x0b' || c = '\x0c'

/-- Python `\w` (ASCII core): letters, digits, underscore. -/
def isWordChar (c : Char) : Bool :=
  c.isAlpha || c.isDigit || c = '_'

/-- The literal part of the rewriter's regular expression
`^(\s*)\[TestCase\(DatabaseType\.(\w+)(?:,|\))`. -/
def attrLit : List Char := "[TestCase(DatabaseType.".data

/-- The rewriter's `re.match(r'^(\s*)\[TestCase\(DatabaseType\.(\w+)(?:,|\))', line)`:
`some (indent, dbType)` when the line matches, where `indent` is group 1
(the leading whitespace) and `dbType` group 2 (the backend identifier).
The regex is anchored and its pieces are determined by maximal-munch:
`\s*` greedily takes the whitespace prefix (no shorter prefix can work,
since the following literal starts with a non-space `[`), and `\w+`
greedily takes the maximal word-character run (backtracking cannot help,
since the following alternatives `,` and `)` are not word characters). -/
def matchTestCase (line : List Char) : Option (List Char × List Char) :=
  let indent := line.takeWhile isSpaceChar
  let rest := line.dropWhile isSpaceChar
  if attrLit.isPrefixOf rest then
    let after := rest.drop attrLit.length
    let w := after.takeWhile isWordChar
    match w, after.dropWhile isWordChar with
    | [], _ => none
    | _ :: _, [] => none
    | _ :: _, c :: _ => if c = ',' ∨ c = ')' then some (indent, w) else none
  else none

/-- The fixed `DB_TYPE_TO_SYMBOL` mapping from the source. -/
def DB_TYPE_TO_SYMBOL : List (List Char × List Char) :=
  [("MicrosoftSQLServer".data, "MSSQL_TESTS".data),
   ("MySql".data, "MYSQL_TESTS".data),
   ("Oracle".data, "ORACLE_TESTS".data),
   ("PostgreSql".data, "POSTGRESQL_TESTS".data),
   ("Sqlite".data, "SQLITE_TESTS".data)]

/-- Python `db_type in DB_TYPE_TO_SYMBOL` / `DB_TYPE_TO_SYMBOL[db_type]`
combined: the guard symbol for a backend identifier, if known. -/
def lookupSymbol (db : List Char) : Option (List Char) :=
  match DB_TYPE_TO_SYMBOL.find? (fun p => p.1 == db) with
  | some p => some p.2
  | none => none

/-- The inserted guard-opening line `f'{indent}#if {symbol}'`. -/
def guardOpen (indent symbol : List Char) : List Char :=
  indent ++ "#if ".data ++ symbol

/-- The inserted guard-closing line `f'{indent}#endif'`. -/
def guardClose (indent : List Char) : List Char :=
  indent ++ "#endif".data

/-- The rewriter's `while i < len(lines)` loop.  `fuel` bounds the number
of remaining iterations; since the loop index strictly increases by at
least one per iteration, `lines.length` iterations always suffice, and
`processGo lines.length lines 0` computes exactly what the loop does (see
`processLines`).  A matching line with a known backend is wrapped:
guard-opening line, the lines from `i` through `find_testcase_end lines i`
verbatim, guard-closing line, and the loop resumes past the span with the
count incremented.  Every other line is copied unchanged. -/
def processGo : Nat → List (List Char) → Nat → List (List Char) × Nat
  | 0, _, _ => ([], 0)
  | fuel + 1, lines, i =>
    if h : i < lines.length then
      match matchTestCase (lines.get ⟨i, h⟩) with
      | some (indent, db) =>
        (match lookupSymbol db with
         | some symbol =>
           (guardOpen indent symbol ::
             ((lines.drop i).take (find_testcase_end lines i + 1 - i) ++
               guardClose indent :: (processGo fuel lines (find_testcase_end lines i + 1)).1),
            (processGo fuel lines (find_testcase_end lines i + 1)).2 + 1)
         | none =>
           (lines.get ⟨i, h⟩ :: (processGo fuel lines (i + 1)).1,
            (processGo fuel lines (i + 1)).2))
      | none =>
        (lines.get ⟨i, h⟩ :: (processGo fuel lines (i + 1)).1,
         (processGo fuel lines (i + 1)).2)
    else ([], 0)

/-- The rewriting loop of `process_file`, over an already-split line
buffer: the new line sequence and the count of wrapped attribute spans. -/
def processLines (lines : List (List Char)) : List (List Char) × Nat :=
  processGo lines.length lines 0

/-- Python's substring test `pat in hay`. -/
def hasSub : List Char → List Char → Bool
  | [], pat => pat.isEmpty
  | c :: t, pat => pat.isPrefixOf (c :: t) || hasSub t pat

/-- Python `content.split('\n')`. -/
def splitNl : List Char → List (List Char)
  | [] => [[]]
  | c :: cs =>
    if c = '\n' then [] :: splitNl cs
    else
      match splitNl cs with
      | p :: ps => (c :: p) :: ps
      | [] => [[c]]

/-- Python `'\n'.join(new_lines)`. -/
def joinNl : List (List Char) → List Char
  | [] => []
  | [l] => l
  | l :: ls => l ++ '\n' :: joinNl ls

/-- `process_file` with the file I/O stripped: takes the file's content,
returns the new content together with the pair the source returns
(wrapped count, modified flag).  The skip check is the source's literal
one: only the substrings `#if MSSQL_TESTS` and `#if MYSQL_TESTS` are
tested. -/
def process_content (content : List Char) : List Char × Nat × Bool :=
  if hasSub content ("#if MSSQL_TESTS".data) || hasSub content ("#if MYSQL_TESTS".data) then
    (content, 0, false)
  else
    let r := processLines (splitNl content)
    let newContent := joinNl r.1
    (newContent, r.2, !(newContent == content))

/-- `Wraps input output n` says: `output` is obtained from `input` by
choosing `n` disjoint consecutive spans of `input` and inserting, around
each, one guard-opening line before and one guard-closing line after,
with every line of `input` reproduced exactly once, in order and
unchanged.  Deleting the inserted guard lines from `output` therefore
reproduces `input` exactly, and `n` counts the wrapped spans. -/
inductive Wraps : List (List Char) → List (List Char) → Nat → Prop where
  | nil : Wraps [] [] 0
  | copy {xs ys : List (List Char)} {n : Nat} (l : List Char) :
      Wraps xs ys n → Wraps (l :: xs) (l :: ys) n
  | wrap {xs ys : List (List Char)} {n : Nat} (indent symbol : List Char)
      (span : List (List Char)) :
      Wraps xs ys n →
      Wraps (span ++ xs)
        (guardOpen indent symbol :: (span ++ guardClose indent :: ys)) (n + 1)

/-- All scanner states reached while the character loop runs over one
line: the state before each executed iteration, plus the state at line
end when the line is exhausted without finding the close.  The recursion
mirrors `scanLine`. -/
def lineStates : ScanState → List Char → List ScanState
  | s, [] => [s]
  | s, [c] =>
    s :: (match scanStep s c none with
          | StepOut.found => []
          | StepOut.continue s1 _ => lineStates s1 [])
  | s, c :: c2 :: cs =>
    s :: (match scanStep s c (some c2) with
          | StepOut.found => []
          | StepOut.continue s1 k => if k = 2 then lineStates s1 cs else lineStates s1 (c2 :: cs))

/-- All scanner states reached across the outer line loop, threading the
state from line to line exactly as `findAux` does. -/
def traceAux : ScanState → List (List Char) → List ScanState
  | s, [] => [s]
  | s, l :: rest =>
    lineStates s l ++
      (match scanLine s l with
       | none => []
       | some s1 => traceAux s1 rest)

/-- Every scanner state reached during `find_testcase_end lines start_index`. -/
def scanTrace (lines : List (List Char)) (start_index : Nat) : List ScanState :=
  traceAux initState (lines.drop start_index)

/-! ## Helper lemmas -/

theorem findAux_some_bounds :
    ∀ (ls : List (List Char)) (s : ScanState) (i j : Nat),
      findAux s ls i = some j → i ≤ j ∧ j < i + ls.length := by
  intro ls
  induction ls with
  | nil => intro s i j h; simp [findAux] at h
  | cons l rest ih =>
    intro s i j h
    simp only [findAux] at h
    cases hs : scanLine s l with
    | none =>
      rw [hs] at h
      simp only [Option.some.injEq] at h
      subst h
      simp only [List.length_cons]
      omega
    | some s1 =>
      rw [hs] at h
      have := ih s1 (i + 1) j h
      simp only [List.length_cons]
      omega

theorem find_testcase_end_ge (lines : List (List Char)) (start_index : Nat) :
    start_index ≤ find_testcase_end lines start_index := by
  unfold find_testcase_end
  cases hf : findAux initState (lines.drop start_index) start_index with
  | none => exact Nat.le_refl _
  | some j => exact (findAux_some_bounds _ _ _ _ hf).1

theorem find_testcase_end_lt (lines : List (List Char)) (start_index : Nat)
    (h : start_index < lines.length) :
    find_testcase_end lines start_index < lines.length := by
  unfold find_testcase_end
  cases hf : findAux initState (lines.drop start_index) start_index with
  | none => exact h
  | some j =>
    have hb := (findAux_some_bounds _ _ _ _ hf).2
    rw [List.length_drop] at hb
    show j < lines.length
    omega

/-! ## Claim theorems -/

/-- Claim C10: for every line buffer and every start index within the buffer,
`find_testcase_end` terminates (it is a total function of this
development) and returns an index `i` with
`start_index ≤ i < lines.length`; no out-of-range access is possible,
even when the start line contains no unquoted opening bracket at all. -/
theorem find_testcase_end_in_bounds (lines : List (List Char)) (start_index : Nat)
    (h : start_index < lines.length) :
    start_index ≤ find_testcase_end lines start_index ∧
      find_testcase_end lines start_index < lines.length :=
  ⟨find_testcase_end_ge lines start_index, find_testcase_end_lt lines start_index h⟩

theorem find_testcase_end_in_bounds_witness :
    (0 : Nat) < [("x".data)].length ∧
      (0 ≤ find_testcase_end [("x".data)] 0 ∧ find_testcase_end [("x".data)] 0 < [("x".data)].length) :=
  ⟨by decide, find_testcase_end_in_bounds [("x".data)] 0 (by decide)⟩

/-- Claim C1: refuted by the code — the skip check of `process_file` tests only
the substrings `#if MSSQL_TESTS` and `#if MYSQL_TESTS`, not all five
guard symbols.  On the one-line file `[TestCase(DatabaseType.Oracle, 1)]`
the first run wraps the attribute in `#if ORACLE_TESTS` / `#endif`; the
second run, fed the first run's output, is NOT skipped: it wraps the
attribute a second time and reports `wrapped_count = 1`,
`modified = true`, so the transformation is not idempotent. -/
theorem skip_check_misses_oracle_guard :
    process_content ("[TestCase(DatabaseType.Oracle, 1)]".data) =
      ("#if ORACLE_TESTS\n[TestCase(DatabaseType.Oracle, 1)]\n#endif".data, 1, true) ∧
    process_content ("#if ORACLE_TESTS\n[TestCase(DatabaseType.Oracle, 1)]\n#endif".data) =
      ("#if ORACLE_TESTS\n#if ORACLE_TESTS\n[TestCase(DatabaseType.Oracle, 1)]\n#endif\n#endif".data,
       1, true) := by
  constructor
  · rfl
  · rfl

/-- Claim C2: refuted by the code — the backslash branch of `find_testcase_end`
sets `escape_next` whenever it sees a backslash inside a regular string,
even when that backslash is itself escaped.  Scanning the four source
characters of the string literal `"\\"` therefore ends still inside the
string (`in_string = true`): the closing quote, although preceded by an
escaped backslash, is treated as escaped and does not terminate the
string.  Consequently, on the two-line buffer `[("\\")` / `]` the matching
`]` on line 1 is never counted and the scanner falls back to returning the
start index 0 instead of 1. -/
theorem escaped_backslash_not_cleared :
    scanLine initState ("\"\\\\\"".data) =
      some { bracket_depth := 0, in_string := true, in_verbatim_string := false,
             escape_next := false } ∧
    find_testcase_end [("[(\"\\\\\")".data), ("]".data)] 0 = 0 := by
  constructor
  · rfl
  · rfl

/-- Claim C8: on the single input line `  [TestCase(DatabaseType.MySql, "x")]`
(indented two spaces) the rewriter produces exactly the three lines
`  #if MYSQL_TESTS`, the original line verbatim, and `  #endif`, each
guard line indentation-matched, with `wrapped_count = 1`; the symbol
comes from the fixed backend-to-symbol mapping. -/
theorem mysql_example_wrapped :
    processLines [("  [TestCase(DatabaseType.MySql, \"x\")]".data)] =
      ([("  #if MYSQL_TESTS".data),
        ("  [TestCase(DatabaseType.MySql, \"x\")]".data),
        ("  #endif".data)], 1) ∧
    lookupSymbol ("MySql".data) = some ("MYSQL_TESTS".data) := by
  constructor
  · rfl
  · rfl

/-- Claim C5: a `[` or `]` seen while `in_string` or `in_verbatim_string` holds
leaves `bracket_depth` unchanged and cannot terminate the scan (the step
is the plain fall-through, which only clears `escape_next`); and when
neither flag holds, `[` increments the depth and `]` decrements it
(terminating the scan exactly when the decremented depth reaches 0) —
bracket characters are counted only outside strings. -/
theorem brackets_ignored_inside_strings (s : ScanState) (c : Char) (next : Option Char) :
    ((c = '[' ∨ c = ']') → (s.in_string = true ∨ s.in_verbatim_string = true) →
       scanStep s c next = StepOut.continue { s with escape_next := false } 1) ∧
    (s.in_string = false → s.in_verbatim_string = false →
       scanStep s '[' next =
         StepOut.continue { s with bracket_depth := s.bracket_depth + 1, escape_next := false } 1) ∧
    (s.in_string = false → s.in_verbatim_string = false → s.bracket_depth - 1 ≠ 0 →
       scanStep s ']' next =
         StepOut.continue { s with bracket_depth := s.bracket_depth - 1, escape_next := false } 1) := by
  refine ⟨?_, ?_, ?_⟩
  · intro hc hs
    rcases hc with rfl | rfl <;> rcases hs with hs | hs <;> simp [scanStep, hs]
  · intro h1 h2
    simp [scanStep, h1, h2]
  · intro h1 h2 hd
    simp [scanStep, h1, h2, hd]

theorem brackets_ignored_inside_strings_witness :
    scanStep ⟨5, true, false, true⟩ '[' none =
      StepOut.continue ⟨5, true, false, false⟩ 1 :=
  (brackets_ignored_inside_strings ⟨5, true, false, true⟩ '[' none).1
    (Or.inl rfl) (Or.inl rfl)

/-- Claim C6: while inside a verbatim string, a `"` immediately followed by
another `"` is consumed as one two-character token with the state
unchanged (the scanner stays inside the verbatim string), and a `"` not
followed by another `"` ends the verbatim string; in particular the
scanner consumes `@"a""b"` as a single verbatim string, ending outside
any string with the bracket depth untouched. -/
theorem verbatim_doubled_quote_stays_inside (s : ScanState) (next : Option Char)
    (hv : s.in_verbatim_string = true) :
    scanStep s '"' (some '"') = StepOut.continue s 2 ∧
    (next ≠ some '"' →
       scanStep s '"' next = StepOut.continue { s with in_verbatim_string := false } 1) ∧
    scanLine initState ("@\"a\"\"b\"".data) =
      some { bracket_depth := 0, in_string := false, in_verbatim_string := false,
             escape_next := false } := by
  refine ⟨?_, ?_, rfl⟩
  · simp [scanStep, hv]
  · intro hn
    simp [scanStep, hv, hn]

theorem verbatim_doubled_quote_stays_inside_witness :
    scanStep ⟨1, false, true, false⟩ '"' (some '"') =
      StepOut.continue ⟨1, false, true, false⟩ 2 :=
  (verbatim_doubled_quote_stays_inside ⟨1, false, true, false⟩ none rfl).1

/-- Claim C3, counterexample: on the one-line buffer
`[TestCase(DatabaseType.MySql,` (an attribute opener with no closing `]`
anywhere) the scanner exhausts the buffer and signals "no match found" by
returning the start index 0 — yet the rewriter does NOT treat the
candidate as nothing to wrap: it emits a guard-opening and a
guard-closing directive around that single line and reports
`wrapped_count = 1`, contradicting the claim's "no guard lines, count
not incremented". -/
theorem scanner_fallback_counterexample :
    find_testcase_end [("[TestCase(DatabaseType.MySql,".data)] 0 = 0 ∧
    processLines [("[TestCase(DatabaseType.MySql,".data)] =
      ([("#if MYSQL_TESTS".data),
        ("[TestCase(DatabaseType.MySql,".data),
        ("#endif".data)], 1) := by
  constructor
  · rfl
  · rfl

/-- Claim C3, amended: the rewriter cannot distinguish the scanner's
"no match found" fallback (return of the unchanged start index) from a
genuine match on the start line.  When the scanner returns the original
start index for a recognised attribute line, the rewriter does not skip
and does not crash: it wraps exactly that single line — guard-opening
directive, the line itself, guard-closing directive — and increments the
wrapped count, then continues with the next line. -/
theorem scanner_fallback_wraps_single_line (fuel : Nat) (lines : List (List Char)) (i : Nat)
    (h : i < lines.length) (indent symbol db : List Char)
    (hm : matchTestCase (lines.get ⟨i, h⟩) = some (indent, db))
    (hs : lookupSymbol db = some symbol)
    (hf : find_testcase_end lines i = i) :
    processGo (fuel + 1) lines i =
      (guardOpen indent symbol :: lines.get ⟨i, h⟩ :: guardClose indent ::
         (processGo fuel lines (i + 1)).1,
       (processGo fuel lines (i + 1)).2 + 1) := by
  have hspan : (lines.drop i).take (i + 1 - i) = [lines.get ⟨i, h⟩] := by
    have h1 : i + 1 - i = 1 := by omega
    rw [h1, List.drop_eq_getElem_cons h]
    rfl
  simp only [processGo, dif_pos h, hm, hs, hf, hspan]
  rfl

theorem scanner_fallback_wraps_single_line_witness :
    processGo 1 [("[TestCase(DatabaseType.MySql,".data)] 0 =
      (guardOpen [] ("MYSQL_TESTS".data) ::
         ("[TestCase(DatabaseType.MySql,".data) :: guardClose [] ::
         (processGo 0 [("[TestCase(DatabaseType.MySql,".data)] 1).1,
       (processGo 0 [("[TestCase(DatabaseType.MySql,".data)] 1).2 + 1) :=
  scanner_fallback_wraps_single_line 0 [("[TestCase(DatabaseType.MySql,".data)] 0
    (by decide) [] ("MYSQL_TESTS".data) ("MySql".data) (by decide) (by decide) (by decide)

/-- Claim C7: an attribute-header line whose backend identifier is not in
`DB_TYPE_TO_SYMBOL` is copied to the output unchanged — no guard lines,
no count contribution — and processing resumes with the next line; in
particular the one-line file `[TestCase(DatabaseType.Unknown, 1)]` is
returned byte-for-byte unchanged with `wrapped_count = 0` and
`modified = false`. -/
theorem unknown_backend_passthrough :
    (∀ (fuel : Nat) (lines : List (List Char)) (i : Nat) (h : i < lines.length)
       (indent db : List Char),
       matchTestCase (lines.get ⟨i, h⟩) = some (indent, db) →
       lookupSymbol db = none →
       processGo (fuel + 1) lines i =
         (lines.get ⟨i, h⟩ :: (processGo fuel lines (i + 1)).1,
          (processGo fuel lines (i + 1)).2)) ∧
    process_content ("[TestCase(DatabaseType.Unknown, 1)]".data) =
      ("[TestCase(DatabaseType.Unknown, 1)]".data, 0, false) := by
  constructor
  · intro fuel lines i h indent db hm hl
    simp only [processGo, dif_pos h, hm, hl]
  · rfl

theorem unknown_backend_passthrough_witness :
    processGo 1 [("[TestCase(DatabaseType.Unknown, 1)]".data)] 0 =
      (("[TestCase(DatabaseType.Unknown, 1)]".data) ::
         (processGo 0 [("[TestCase(DatabaseType.Unknown, 1)]".data)] 1).1,
       (processGo 0 [("[TestCase(DatabaseType.Unknown, 1)]".data)] 1).2) :=
  unknown_backend_passthrough.1 0 [("[TestCase(DatabaseType.Unknown, 1)]".data)] 0
    (by decide) [] ("Unknown".data) (by decide) (by decide)

theorem processGo_wraps :
    ∀ (fuel : Nat) (lines : List (List Char)) (i : Nat),
      lines.length ≤ fuel + i →
      Wraps (lines.drop i) (processGo fuel lines i).1 (processGo fuel lines i).2 := by
  intro fuel
  induction fuel with
  | zero =>
    intro lines i h
    rw [List.drop_eq_nil_of_le (by omega)]
    exact Wraps.nil
  | succ fuel ih =>
    intro lines i h
    by_cases hi : i < lines.length
    · cases hm : matchTestCase (lines.get ⟨i, hi⟩) with
      | none =>
        simp only [processGo, dif_pos hi, hm]
        rw [List.drop_eq_getElem_cons hi]
        exact Wraps.copy _ (ih lines (i + 1) (by omega))
      | some p =>
        obtain ⟨indent, db⟩ := p
        cases hl : lookupSymbol db with
        | none =>
          simp only [processGo, dif_pos hi, hm, hl]
          rw [List.drop_eq_getElem_cons hi]
          exact Wraps.copy _ (ih lines (i + 1) (by omega))
        | some symbol =>
          simp only [processGo, dif_pos hi, hm, hl]
          have hge : i ≤ find_testcase_end lines i := find_testcase_end_ge lines i
          have hdd : (lines.drop i).drop (find_testcase_end lines i + 1 - i) =
              lines.drop (find_testcase_end lines i + 1) := by
            rw [List.drop_drop]
            congr 1
            omega
          have hdecomp : (lines.drop i).take (find_testcase_end lines i + 1 - i) ++
              lines.drop (find_testcase_end lines i + 1) = lines.drop i := by
            rw [← hdd, List.take_append_drop]
          have hw := @Wraps.wrap (lines.drop (find_testcase_end lines i + 1))
            ((processGo fuel lines (find_testcase_end lines i + 1)).1)
            ((processGo fuel lines (find_testcase_end lines i + 1)).2)
            indent symbol ((lines.drop i).take (find_testcase_end lines i + 1 - i))
            (ih lines (find_testcase_end lines i + 1) (by omega))
          rw [hdecomp] at hw
          exact hw
    · simp only [processGo, dif_neg hi]
      rw [List.drop_eq_nil_of_le (by omega)]
      exact Wraps.nil

/-- Claim C4: for every input line sequence, the rewriter's output is the input
with guard lines inserted and nothing else: `Wraps input output count`
exhibits the output as the input's lines, in order and unchanged, with a
guard-opening line inserted before and a guard-closing line after each of
`count` disjoint wrapped spans — so deleting the inserted guard lines
reproduces the input exactly, and the reported count equals the number of
spans actually wrapped. -/
theorem output_is_input_plus_guard_lines (lines : List (List Char)) :
    Wraps lines (processLines lines).1 (processLines lines).2 := by
  have h := processGo_wraps lines.length lines 0 (by omega)
  rw [List.drop_zero] at h
  exact h

theorem scanStep_flags (s : ScanState) (c : Char) (next : Option Char) (s1 : ScanState) (k : Nat)
    (hb : (s.in_string && s.in_verbatim_string) = false)
    (h : scanStep s c next = StepOut.continue s1 k) :
    (s1.in_string && s1.in_verbatim_string) = false := by
  unfold scanStep at h
  split_ifs at h <;> cases h <;> simp_all

theorem scanLine_flags :
    ∀ (n : Nat) (l : List Char) (s s1 : ScanState), l.length ≤ n →
      (s.in_string && s.in_verbatim_string) = false → scanLine s l = some s1 →
      (s1.in_string && s1.in_verbatim_string) = false := by
  intro n
  induction n with
  | zero =>
    intro l s s1 hn hb h
    have hl : l = [] := List.eq_nil_of_length_eq_zero (by omega)
    subst hl
    simp only [scanLine, Option.some.injEq] at h
    subst h
    exact hb
  | succ n ih =>
    intro l s s1 hn hb h
    match l with
    | [] =>
      simp only [scanLine, Option.some.injEq] at h
      subst h
      exact hb
    | [c] =>
      simp only [scanLine] at h
      split at h
      · exact Option.noConfusion h
      next s2 k hs =>
        simp only [scanLine, Option.some.injEq] at h
        subst h
        exact scanStep_flags s c none s2 k hb hs
    | c :: c2 :: cs =>
      simp only [scanLine] at h
      split at h
      · exact Option.noConfusion h
      next s2 k hs =>
        have hb2 := scanStep_flags s c (some c2) s2 k hb hs
        simp only [List.length_cons] at hn
        by_cases hk : k = 2
        · rw [if_pos hk] at h
          exact ih cs s2 s1 (by omega) hb2 h
        · rw [if_neg hk] at h
          exact ih (c2 :: cs) s2 s1 (by simp only [List.length_cons]; omega) hb2 h

theorem lineStates_flags :
    ∀ (n : Nat) (l : List Char) (s : ScanState), l.length ≤ n →
      (s.in_string && s.in_verbatim_string) = false →
      ∀ t ∈ lineStates s l, (t.in_string && t.in_verbatim_string) = false := by
  intro n
  induction n with
  | zero =>
    intro l s hn hb t ht
    have hl : l = [] := List.eq_nil_of_length_eq_zero (by omega)
    subst hl
    simp only [lineStates, List.mem_singleton] at ht
    subst ht
    exact hb
  | succ n ih =>
    intro l s hn hb t ht
    match l with
    | [] =>
      simp only [lineStates, List.mem_singleton] at ht
      subst ht
      exact hb
    | [c] =>
      simp only [lineStates] at ht
      rcases List.mem_cons.mp ht with rfl | ht2
      · exact hb
      · split at ht2
        · exact absurd ht2 (List.not_mem_nil t)
        next s2 k hs =>
          exact ih [] s2 (by simp) (scanStep_flags s c none s2 k hb hs) t ht2
    | c :: c2 :: cs =>
      simp only [lineStates] at ht
      rcases List.mem_cons.mp ht with rfl | ht2
      · exact hb
      · split at ht2
        · exact absurd ht2 (List.not_mem_nil t)
        next s2 k hs =>
          have hb2 := scanStep_flags s c (some c2) s2 k hb hs
          simp only [List.length_cons] at hn
          by_cases hk : k = 2
          · rw [if_pos hk] at ht2
            exact ih cs s2 (by omega) hb2 t ht2
          · rw [if_neg hk] at ht2
            exact ih (c2 :: cs) s2 (by simp only [List.length_cons]; omega) hb2 t ht2

theorem traceAux_flags :
    ∀ (ls : List (List Char)) (s : ScanState),
      (s.in_string && s.in_verbatim_string) = false →
      ∀ t ∈ traceAux s ls, (t.in_string && t.in_verbatim_string) = false := by
  intro ls
  induction ls with
  | nil =>
    intro s hb t ht
    simp only [traceAux, List.mem_singleton] at ht
    subst ht
    exact hb
  | cons l rest ih =>
    intro s hb t ht
    simp only [traceAux, List.mem_append] at ht
    rcases ht with ht | ht
    · exact lineStates_flags l.length l s (Nat.le_refl _) hb t ht
    · split at ht
      · exact absurd ht (List.not_mem_nil t)
      next s2 hs =>
        exact ih s2 (scanLine_flags l.length l s s2 (Nat.le_refl _) hb hs) t ht

/-- Claim C9: at every step of the bracket scan — for every input buffer and
every start index — the flags `in_string` and `in_verbatim_string` are
never simultaneously true: every scanner state reached during
`find_testcase_end lines start_index` has at most one of the two flags
set. -/
theorem string_flags_never_both_set (lines : List (List Char)) (start_index : Nat)
    (t : ScanState) (ht : t ∈ scanTrace lines start_index) :
    (t.in_string && t.in_verbatim_string) = false :=
  traceAux_flags (lines.drop start_index) initState rfl t ht

theorem string_flags_never_both_set_witness :
    (⟨0, false, true, false⟩ : ScanState) ∈ scanTrace [("@\"x\"".data)] 0 ∧
    ((⟨0, false, true, false⟩ : ScanState).in_string &&
       (⟨0, false, true, false⟩ : ScanState).in_verbatim_string) = false :=
  ⟨by decide,
   string_flags_never_both_set [("@\"x\"".data)] 0 ⟨0, false, true, false⟩ (by decide)⟩
